import Mathlib

/-!
Shallow embedding of the snow_ranger acquisition pipeline
(src/read_ranger_mqtt.py and src/read_ranger_send_mqtt.py).

Bytes are modelled as natural numbers below 256; byte strings as lists of
naturals.  Wall-clock time is an external input: every call the Python code
makes to time.time() or datetime.now() reads the next value supplied by the
environment, so the polling loops are functions of a finite trace of
observation events.
-/

namespace SnowRanger

/-- The carriage-return delimiter byte (the Python literal is the CR byte 13). -/
def CR : Nat := 13

/-- Embeds bytes.partition at the CR delimiter, keeping only the pieces the
code uses: the prefix before the first CR and the suffix after it.  The
Python call is buffer.partition(CR) in read_ranger_mqtt.py lines 196 and 253;
it splits at the FIRST occurrence of the separator. -/
def partitionCR : List Nat → List Nat × List Nat
  | [] => ([], [])
  | b :: bs =>
    if b = CR then ([], bs)
    else
      let p := partitionCR bs
      (b :: p.1, p.2)

/-- The Unicode replacement character U+FFFD produced by lossy decoding. -/
def replChar : Char := Char.ofNat 0xFFFD

/-- Is b a valid UTF-8 continuation byte within the given closed range. -/
def contIn (b lo hi : Nat) : Bool := decide (lo ≤ b) && decide (b ≤ hi)

/-- Fuel-indexed worker for decodeUtf8Lossy.  Each recursive call consumes at
least one input byte, so fuel equal to the input length suffices and the
fuel-zero branch is unreachable from decodeUtf8Lossy. -/
def decodeUtf8LossyAux : Nat → List Nat → List Char
  | 0, _ => []
  | _ + 1, [] => []
  | f + 1, b :: bs =>
    if b < 0x80 then
      Char.ofNat b :: decodeUtf8LossyAux f bs
    else if contIn b 0xC2 0xDF then
      match bs with
      | [] => [replChar]
      | b2 :: rest =>
        if contIn b2 0x80 0xBF then
          Char.ofNat ((b - 0xC0) * 0x40 + (b2 - 0x80)) :: decodeUtf8LossyAux f rest
        else
          replChar :: decodeUtf8LossyAux f (b2 :: rest)
    else if contIn b 0xE0 0xEF then
      let lo2 := if b = 0xE0 then 0xA0 else 0x80
      let hi2 := if b = 0xED then 0x9F else 0xBF
      match bs with
      | [] => [replChar]
      | b2 :: bs2 =>
        if contIn b2 lo2 hi2 then
          match bs2 with
          | [] => [replChar]
          | b3 :: rest =>
            if contIn b3 0x80 0xBF then
              Char.ofNat ((b - 0xE0) * 0x1000 + (b2 - 0x80) * 0x40 + (b3 - 0x80)) ::
                decodeUtf8LossyAux f rest
            else
              replChar :: decodeUtf8LossyAux f (b3 :: rest)
        else
          replChar :: decodeUtf8LossyAux f (b2 :: bs2)
    else if contIn b 0xF0 0xF4 then
      let lo2 := if b = 0xF0 then 0x90 else 0x80
      let hi2 := if b = 0xF4 then 0x8F else 0xBF
      match bs with
      | [] => [replChar]
      | b2 :: bs2 =>
        if contIn b2 lo2 hi2 then
          match bs2 with
          | [] => [replChar]
          | b3 :: bs3 =>
            if contIn b3 0x80 0xBF then
              match bs3 with
              | [] => [replChar]
              | b4 :: rest =>
                if contIn b4 0x80 0xBF then
                  Char.ofNat ((b - 0xF0) * 0x40000 + (b2 - 0x80) * 0x1000 +
                      (b3 - 0x80) * 0x40 + (b4 - 0x80)) :: decodeUtf8LossyAux f rest
                else
                  replChar :: decodeUtf8LossyAux f (b4 :: rest)
            else
              replChar :: decodeUtf8LossyAux f (b3 :: bs3)
        else
          replChar :: decodeUtf8LossyAux f (b2 :: bs2)
    else
      replChar :: decodeUtf8LossyAux f bs

/-- Embeds bytes.decode with encoding utf-8 and errors="replace": valid UTF-8
sequences decode to their scalar value, and each maximal invalid subpart is
replaced by a single U+FFFD, following the substitution-of-maximal-subparts
policy CPython implements for the replace error handler. -/
def decodeUtf8Lossy (bs : List Nat) : List Char :=
  decodeUtf8LossyAux bs.length bs

/-- Code points removed by the Python str.strip() with no arguments: ASCII
whitespace and control separators plus the Unicode space separators. -/
def pyWhitespace : List Nat :=
  [9, 10, 11, 12, 13, 28, 29, 30, 31, 32, 0x85, 0xA0, 0x1680,
   0x2000, 0x2001, 0x2002, 0x2003, 0x2004, 0x2005, 0x2006, 0x2007,
   0x2008, 0x2009, 0x200A, 0x2028, 0x2029, 0x202F, 0x205F, 0x3000]

/-- Whether a character counts as whitespace for str.strip(). -/
def isPySpace (c : Char) : Bool := pyWhitespace.contains c.toNat

/-- Embeds str.strip() with no arguments: drop whitespace from both ends. -/
def pyStrip (s : List Char) : List Char :=
  ((s.dropWhile isPySpace).reverse.dropWhile isPySpace).reverse

/-- One candidate line as the code builds it from a byte prefix:
line.decode("utf-8", errors="replace").strip()
(read_ranger_mqtt.py lines 197 and 254). -/
def lineOf (pre : List Nat) : String :=
  String.mk (pyStrip (decodeUtf8Lossy pre))

/-- One feed step of the frame assembler, as both polling loops inline it
(read_ranger_mqtt.py lines 192 to 197 and 248 to 254): append the newly read
bytes to the buffer, then a single IF on the presence of the CR delimiter:
when present, partition ONCE at the first CR, yield the decoded stripped
prefix as the sole candidate line and retain the suffix after that first CR;
when absent, yield nothing and retain the whole appended buffer. -/
def feedStep (buffer data : List Nat) : List Nat × List String :=
  let buf := buffer ++ data
  if buf.contains CR then
    let p := partitionCR buf
    (p.2, [lineOf p.1])
  else
    (buf, [])

/-- Modelled from the spec (section 4.2 FrameAssembler.feed), for comparison
with feedStep: repeatedly partition on the delimiter while at least one is
present, yielding every complete line in the call, and keep the remainder
after the last delimiter as the new buffer.  Fuel-indexed worker; each
round consumes at least the delimiter byte. -/
def specFeedAux : Nat → List Nat → List Nat × List String
  | 0, buf => (buf, [])
  | f + 1, buf =>
    if buf.contains CR then
      let p := partitionCR buf
      let r := specFeedAux f p.2
      (r.1, lineOf p.1 :: r.2)
    else
      (buf, [])

/-- Modelled from the spec (section 4.2): the FrameAssembler.feed contract as
the spec words it — append, then extract a line per delimiter while any
delimiter remains. -/
def specFeed (buffer data : List Nat) : List Nat × List String :=
  specFeedAux (buffer ++ data).length (buffer ++ data)

/-- ASCII decimal digit test, the fragment of the Python regex class for a
digit that the reference pattern exercises. -/
def isAsciiDigit (c : Char) : Bool := decide ('0' ≤ c) && decide (c ≤ '9')

/-- Embeds re.match of the reference pattern, caret R, one group of four
digits, dollar (the --pattern default in both scripts), followed by
match.group(1): the line must consist of the letter R and exactly four
decimal digits, and the captured group is those four digits.  A non-match is
the value none, never an error. -/
def rangerMatch (line : String) : Option String :=
  match line.toList with
  | 'R' :: rest =>
    if rest.length = 4 && rest.all isAsciiDigit then some (String.mk rest) else none
  | _ => none

/-! ## UART acquisition loop (read_from_ranger_uart, lines 148 to 220)

The loop body runs under the guard time.time() - start_time < timeout.  An
iteration observes tCond (the value time.time() returns at the while check),
avail (the bytes ser.read(ser.in_waiting) returns; the empty list when
ser.in_waiting is 0) and tStamp (the value the timestamp call returns when
data was available). -/

/-- One observed iteration of the UART polling loop. -/
structure UartEvent where
  tCond : Nat
  avail : List Nat
  tStamp : Nat
deriving DecidableEq, Repr

/-- Mutable locals of the UART loop: buffer (starts empty) and unix_time
(starts None). -/
structure UartState where
  buffer : List Nat
  unixTime : Option Nat
deriving DecidableEq, Repr

/-- Result of one UART loop-body iteration: either continue with an updated
state, or break out of the loop with a match (the Python break at line 203). -/
inductive UartStep where
  | next (st : UartState)
  | matchedAt (ts : Option Nat) (capture : String)
deriving DecidableEq, Repr

/-- One UART loop-body iteration (lines 187 to 204): when bytes are waiting,
read them, stamp unix_time, run one feed step; if that yields a line, match
it against the pattern and break on success; otherwise keep polling.  When
no bytes are waiting the iteration changes nothing (in particular unix_time
is NOT stamped). -/
def uartStep (pat : String → Option String) (e : UartEvent) (st : UartState) : UartStep :=
  if e.avail.isEmpty then
    .next st
  else
    let ts := some e.tStamp
    let r := feedStep st.buffer e.avail
    match r.2 with
    | [] => .next ⟨r.1, ts⟩
    | l :: _ =>
      match pat l with
      | some cap => .matchedAt ts cap
      | none => .next ⟨r.1, ts⟩

/-- Terminal outcomes of the UART polling loop.  interrupted is the model of
the event trace ending before the loop does (an external interrupt or a
source error unwinding through the loop); the Python loop itself only exits
through the while guard (timeout) or break (match). -/
inductive UartOutcome where
  | matched (ts : Option Nat) (capture : String)
  | timedOut (t : Nat)
  | interrupted (st : UartState)
deriving DecidableEq, Repr

/-- The UART polling loop (lines 186 to 208): before each iteration the
while guard compares elapsed time against the timeout; on guard failure the
for-else raises the timeout error.  Times are naturals, and the guard uses
truncated subtraction, which agrees with the Python float comparison for
every positive timeout. -/
def uartLoop (pat : String → Option String) (start timeout : Nat) :
    List UartEvent → UartState → UartOutcome
  | [], st => .interrupted st
  | e :: es, st =>
    if e.tCond - start < timeout then
      match uartStep pat e st with
      | .next st' => uartLoop pat start timeout es st'
      | .matchedAt ts cap => .matched ts cap
    else
      .timedOut e.tCond

/-- The hard-coded timeout bound of the UART loop (line 180). -/
def uartTimeoutSeconds : Nat := 20

/-- What read_from_ranger_uart reports to its caller. -/
inductive UartResult where
  | reading (ts : Option Nat) (value : String)
  | timeoutError
  | interruptError
  | closeError
deriving DecidableEq, Repr

/-- read_from_ranger_uart after a successful open (lines 174 to 220): run the
loop from an empty buffer and an unset timestamp, then the finally clause
closes the serial handle exactly once on every path; a raising close
supersedes any prior outcome, including a successful match.  After a clean
close, a match returns the timestamp / captured-group dict, the while-else
raises the timeout error, and an interrupt keeps propagating.  The second
component counts calls to ser.close(). -/
def read_from_ranger_uart (closeRaises : Bool) (pat : String → Option String)
    (start : Nat) (events : List UartEvent) : UartResult × Nat :=
  let out := uartLoop pat start uartTimeoutSeconds events ⟨[], none⟩
  if closeRaises then
    (.closeError, 1)
  else
    match out with
    | .matched ts cap => (.reading ts cap, 1)
    | .timedOut _ => (.timeoutError, 1)
    | .interrupted _ => (.interruptError, 1)

/-! ## GPIO acquisition loop (read_from_ranger_gpio, lines 223 to 276; the
loop in read_ranger_send_mqtt.py lines 141 to 161 is byte-for-byte the same
logic). -/

/-- One observed iteration of the GPIO polling loop: the bytes
bb_serial_read returns (empty when count is 0) and the value the timestamp
call returns.  The GPIO loop stamps time on EVERY iteration, before the
count test. -/
structure GpioEvent where
  avail : List Nat
  tStamp : Nat
deriving DecidableEq, Repr

/-- Mutable locals of the GPIO loop: buffer (starts empty) and unix_time
(starts 0). -/
structure GpioState where
  buffer : List Nat
  unixTime : Nat
deriving DecidableEq, Repr

/-- Result of one GPIO loop-body iteration. -/
inductive GpioStep where
  | next (st : GpioState)
  | matchedAt (ts : Nat) (capture : String)
deriving DecidableEq, Repr

/-- One GPIO loop-body iteration (lines 243 to 262): read, stamp unix_time
unconditionally, and when bytes arrived run one feed step and match any
produced line, returning on success. -/
def gpioStep (pat : String → Option String) (e : GpioEvent) (st : GpioState) : GpioStep :=
  let ts := e.tStamp
  if e.avail.isEmpty then
    .next ⟨st.buffer, ts⟩
  else
    let r := feedStep st.buffer e.avail
    match r.2 with
    | [] => .next ⟨r.1, ts⟩
    | l :: _ =>
      match pat l with
      | some cap => .matchedAt ts cap
      | none => .next ⟨r.1, ts⟩

/-- Terminal outcomes of the GPIO polling loop.  The constructor timedOut is
the shared terminal vocabulary of the acquisition state machine; the GPIO
loop is while True and has no guard that could produce it. -/
inductive GpioOutcome where
  | matched (ts : Nat) (capture : String)
  | timedOut (t : Nat)
  | interrupted (st : GpioState)
deriving DecidableEq, Repr

/-- The GPIO polling loop (lines 242 to 262): while True over the iteration
trace; only a match returns, and the trace running out models an external
interrupt or source error ending the loop. -/
def gpioLoop (pat : String → Option String) :
    List GpioEvent → GpioState → GpioOutcome
  | [], st => .interrupted st
  | e :: es, st =>
    match gpioStep pat e st with
    | .next st' => gpioLoop pat es st'
    | .matchedAt ts cap => .matched ts cap

/-- What read_from_ranger_gpio reports to its caller. -/
inductive GpioResult where
  | reading (ts : Nat) (value : String)
  | interruptError
  | closeError
deriving DecidableEq, Repr

/-- read_from_ranger_gpio after a successful open (lines 239 to 276): run the
while-True loop from an empty buffer and unix_time 0; the finally clause
closes the bit-bang handle exactly once on every path, and a raising close
re-raises, superseding any prior outcome including a successful match.  The
second component counts calls to bb_serial_read_close. -/
def read_from_ranger_gpio (closeRaises : Bool) (pat : String → Option String)
    (events : List GpioEvent) : GpioResult × Nat :=
  let out := gpioLoop pat events ⟨[], 0⟩
  if closeRaises then
    (.closeError, 1)
  else
    match out with
    | .matched ts cap => (.reading ts cap, 1)
    | .timedOut _ => (.interruptError, 1)
    | .interrupted _ => (.interruptError, 1)

/-! ## Source selection (read_from_ranger, lines 279 to 288). -/

/-- Which acquisition path the orchestrator takes before any source open is
attempted. -/
inductive SourceChoice where
  | gpioSource (pin : Int)
  | uartSource (port : String)
  | configError
deriving DecidableEq, Repr

/-- Embeds read_from_ranger (lines 279 to 288): a GPIO pin other than -1
selects the GPIO path, otherwise a non-empty port string selects the UART
path, otherwise the function logs and raises before any source is opened.
Note the first test wins: when both fields are set the GPIO path is taken
and no error is raised. -/
def read_from_ranger (serialGpio : Int) (serialPort : String) : SourceChoice :=
  if serialGpio ≠ -1 then .gpioSource serialGpio
  else if serialPort ≠ "" then .uartSource serialPort
  else .configError

/-! ## Payload and sink (send_to_mqtt, read_ranger_mqtt.py lines 291 to 319;
read_ranger_send_mqtt.py lines 179 to 210 is the same control flow). -/

/-- A JSON scalar as the payload dict uses them. -/
inductive JVal where
  | jint (n : Nat)
  | jstr (s : String)
deriving DecidableEq, Repr

/-- The dict a successful acquisition returns (read_ranger_mqtt.py lines 214
to 217 and 259 to 262; read_ranger_send_mqtt.py lines 158 to 161): the keys
are the string timestamp bound to the stamped time and the string
ranger_distance bound to the captured group. -/
def rangerPayload (ts : Nat) (value : String) : List (String × JVal) :=
  [("timestamp", .jint ts), ("ranger_distance", .jstr value)]

/-- Serialization of one JSON scalar as json.dumps renders it (string
escaping is not modelled; the captured values are digit strings). -/
def jvalDump : JVal → String
  | .jint n => toString n
  | .jstr s => "\"" ++ s ++ "\""

/-- Embeds json.dumps on a dict with default separators: keys in insertion
order, comma-space between items, colon-space between key and value. -/
def jsonDumps (d : List (String × JVal)) : String :=
  "\x7b" ++ String.intercalate ", "
    (d.map (fun kv => "\"" ++ kv.1 ++ "\": " ++ jvalDump kv.2)) ++ "\x7d"

/-- Python truthiness of an optional string argument: None and the empty
string are falsy (argparse leaves --mqtt-user and --mqtt-password as None
when absent). -/
def pyTruthy : Option String → Bool
  | none => false
  | some s => !decide (s = "")

/-- Sink configuration fields send_to_mqtt reads. -/
structure SinkCfg where
  user : Option String
  password : Option String
  broker : String
  port : Nat
  topic : String
deriving DecidableEq, Repr

/-- Which external sink calls can fail in a given run. -/
structure SinkEnv where
  connectFails : Bool
  publishFails : Bool
  disconnectFails : Bool
deriving DecidableEq, Repr

/-- Observable actions of one send_to_mqtt call, in order. -/
inductive SinkEvent where
  | setCredentials (u p : String)
  | connectAttempt (broker : String) (port : Nat)
  | publishAttempt (topic : String) (payload : String)
  | logPublishError
  | disconnectAttempt
  | logDisconnectError
deriving DecidableEq, Repr

/-- What send_to_mqtt reports to its caller. -/
inductive SendResult where
  | ok
  | connectError
  | publishError
  | disconnectError
deriving DecidableEq, Repr

/-- The try/except part of send_to_mqtt (lines 292 to 310): apply credentials
only when user and password are both truthy, attempt the connect, then the
publish; the except clause logs any raised error (logPublishError models the
logger.error call at line 309, which covers connect and publish failures
alike) and re-raises. -/
def sendBody (cfg : SinkCfg) (payload : List (String × JVal)) (env : SinkEnv) :
    SendResult × List SinkEvent :=
  let credEvents :=
    if pyTruthy cfg.user && pyTruthy cfg.password then
      [SinkEvent.setCredentials (cfg.user.getD "") (cfg.password.getD "")]
    else
      []
  if env.connectFails then
    (.connectError, credEvents ++ [.connectAttempt cfg.broker cfg.port, .logPublishError])
  else if env.publishFails then
    (.publishError, credEvents ++ [.connectAttempt cfg.broker cfg.port,
      .publishAttempt cfg.topic (jsonDumps payload), .logPublishError])
  else
    (.ok, credEvents ++ [.connectAttempt cfg.broker cfg.port,
      .publishAttempt cfg.topic (jsonDumps payload)])

/-- Embeds send_to_mqtt (lines 291 to 319): the try/except body followed by
the finally clause, which always attempts the disconnect; a raising
disconnect is logged and re-raised, superseding the body outcome whether it
was a success or an error. -/
def send_to_mqtt (cfg : SinkCfg) (payload : List (String × JVal)) (env : SinkEnv) :
    SendResult × List SinkEvent :=
  let r := sendBody cfg payload env
  if env.disconnectFails then
    (.disconnectError, r.2 ++ [.disconnectAttempt, .logDisconnectError])
  else
    (r.1, r.2 ++ [.disconnectAttempt])

/-- Whether a GPIO loop outcome is the interrupted terminal. -/
def GpioOutcome.isInterrupted : GpioOutcome → Bool
  | .interrupted _ => true
  | _ => false

/-- Whether a UART loop outcome is the timed-out terminal. -/
def UartOutcome.isTimedOut : UartOutcome → Bool
  | .timedOut _ => true
  | _ => false

/-! ## Helper lemmas -/

/-- partitionCR splits at the first CR: when the delimiter occurs in bs, the
returned prefix is CR-free, the split point is a CR, and the returned suffix
is everything after that first CR. -/
theorem partitionCR_eq_of_contains (bs : List Nat) (h : bs.contains CR = true) :
    ∃ pre post, bs = pre ++ CR :: post ∧ pre.contains CR = false ∧
      partitionCR bs = (pre, post) := by
  induction bs with
  | nil => simp at h
  | cons b bs ih =>
    by_cases hb : b = CR
    · exact ⟨[], bs, by simp [hb], by simp, by simp [partitionCR, hb]⟩
    · have h' : bs.contains CR = true := by
        simp at h ⊢
        rcases h with h | h
        · exact absurd h.symm hb
        · exact h
      obtain ⟨pre, post, heq, hpre, hp⟩ := ih h'
      refine ⟨b :: pre, post, by simp [heq], ?_, by simp [partitionCR, hb, hp]⟩
      simp at hpre ⊢
      exact ⟨fun he => hb he.symm, hpre⟩

/-- When the pattern never matches, a UART loop-body iteration always
continues. -/
theorem uartStep_of_nomatch (pat : String → Option String)
    (hnm : ∀ l, pat l = none) (e : UartEvent) (st : UartState) :
    ∃ st', uartStep pat e st = .next st' := by
  unfold uartStep
  by_cases hav : e.avail.isEmpty
  · simp [hav]
  · simp only [hav, Bool.false_eq_true, if_false]
    rcases hr : (feedStep st.buffer e.avail).2 with _ | ⟨l, ls⟩
    · exact ⟨_, rfl⟩
    · simp [hnm l]

/-- When the pattern never matches, a GPIO loop-body iteration always
continues. -/
theorem gpioStep_of_nomatch (pat : String → Option String)
    (hnm : ∀ l, pat l = none) (e : GpioEvent) (st : GpioState) :
    ∃ st', gpioStep pat e st = .next st' := by
  unfold gpioStep
  by_cases hav : e.avail.isEmpty
  · simp [hav]
  · simp only [hav, Bool.false_eq_true, if_false]
    rcases hr : (feedStep st.buffer e.avail).2 with _ | ⟨l, ls⟩
    · exact ⟨_, rfl⟩
    · simp [hnm l]

/-- The UART loop reports a timed-out terminal only with an elapsed time at
or beyond the bound. -/
theorem uartLoop_timedOut_le (pat : String → Option String) (start T : Nat)
    (hT : 0 < T) (events : List UartEvent) :
    ∀ st t, uartLoop pat start T events st = .timedOut t → start + T ≤ t := by
  induction events with
  | nil => intro st t h; simp [uartLoop] at h
  | cons e es ih =>
    intro st t h
    rw [uartLoop] at h
    by_cases hc : e.tCond - start < T
    · rw [if_pos hc] at h
      cases hs : uartStep pat e st with
      | next st' => rw [hs] at h; exact ih st' t h
      | matchedAt ts cap => rw [hs] at h; exact absurd h (by simp)
    · rw [if_neg hc] at h
      have ht : t = e.tCond := by
        cases h
        rfl
      omega

/-- With a pattern that never matches, the UART loop reaches the timed-out
terminal as soon as its trace contains an observation at or beyond the
bound. -/
theorem uartLoop_nomatch_timesOut (pat : String → Option String)
    (hnm : ∀ l, pat l = none) (start T : Nat) (events : List UartEvent) :
    ∀ st, (∃ e ∈ events, start + T ≤ e.tCond) →
      (uartLoop pat start T events st).isTimedOut = true := by
  induction events with
  | nil =>
    intro st h
    rcases h with ⟨e, he, _⟩
    simp at he
  | cons e es ih =>
    intro st h
    rw [uartLoop]
    by_cases hc : e.tCond - start < T
    · have hes : ∃ e' ∈ es, start + T ≤ e'.tCond := by
        rcases h with ⟨e', he', hle⟩
        rcases List.mem_cons.mp he' with rfl | hmem
        · omega
        · exact ⟨e', hmem, hle⟩
      rw [if_pos hc]
      obtain ⟨st', hs⟩ := uartStep_of_nomatch pat hnm e st
      rw [hs]
      exact ih st' hes
    · rw [if_neg hc]
      rfl

/-- The GPIO loop never reaches the timed-out terminal. -/
theorem gpioLoop_ne_timedOut (pat : String → Option String)
    (events : List GpioEvent) :
    ∀ st t, gpioLoop pat events st ≠ .timedOut t := by
  induction events with
  | nil => intro st t h; simp [gpioLoop] at h
  | cons e es ih =>
    intro st t h
    rw [gpioLoop] at h
    cases hs : gpioStep pat e st with
    | next st' => rw [hs] at h; exact ih st' t h
    | matchedAt ts cap => rw [hs] at h; exact absurd h (by simp)

/-- With a pattern that never matches, the GPIO loop runs through its whole
trace and ends interrupted (only the trace ending can stop it). -/
theorem gpioLoop_nomatch_interrupted (pat : String → Option String)
    (hnm : ∀ l, pat l = none) (events : List GpioEvent) :
    ∀ st, (gpioLoop pat events st).isInterrupted = true := by
  induction events with
  | nil => intro st; rfl
  | cons e es ih =>
    intro st
    obtain ⟨st', hs⟩ := gpioStep_of_nomatch pat hnm e st
    rw [gpioLoop, hs]
    exact ih st'

/-! ## Claim C1 -/

/-- C1: the claim says one feed step keeps extracting lines while a CR
delimiter remains, yielding every complete line in the call and retaining
the suffix after the LAST delimiter.  The code performs a single partition:
feeding the bytes A CR B CR into an empty buffer yields only the line A and
retains B CR, while the claimed behaviour (specFeed, worded from the spec)
would yield A and B and retain an empty buffer. -/
theorem c1_counterexample :
    feedStep [] [65, 13, 66, 13] = ([66, 13], ["A"]) ∧
    specFeed [] [65, 13, 66, 13] = ([], ["A", "B"]) ∧
    feedStep [] [65, 13, 66, 13] ≠ specFeed [] [65, 13, 66, 13] := by
  refine ⟨by decide, by decide, by decide⟩

/-- C1 amended: one feed step appends the newly polled bytes and extracts at
most ONE delimited line: when a CR is present in the appended buffer, the
yielded line is the decoded, whitespace-trimmed prefix before the FIRST CR
and the retained buffer is exactly the suffix after that first CR; when no
CR is present, no line is yielded and the whole appended buffer is
retained. -/
theorem c1_feed_single_line (buffer data : List Nat) :
    ((buffer ++ data).contains CR = false → feedStep buffer data = (buffer ++ data, [])) ∧
    ((buffer ++ data).contains CR = true →
      ∃ pre post, buffer ++ data = pre ++ CR :: post ∧ pre.contains CR = false ∧
        feedStep buffer data = (post, [lineOf pre])) := by
  constructor
  · intro h
    simp only [feedStep]
    rw [h]
    simp
  · intro h
    obtain ⟨pre, post, heq, hpre, hp⟩ := partitionCR_eq_of_contains (buffer ++ data) h
    refine ⟨pre, post, heq, hpre, ?_⟩
    simp only [feedStep]
    rw [h]
    simp [hp]

/-- C1 witness: the amended step theorem evaluated on the concrete feed of
A CR B CR into an empty buffer. -/
theorem c1_feed_single_line_witness :
    ∃ pre post, ([] : List Nat) ++ [65, 13, 66, 13] = pre ++ CR :: post ∧
      pre.contains CR = false ∧ feedStep [] [65, 13, 66, 13] = (post, [lineOf pre]) :=
  (c1_feed_single_line [] [65, 13, 66, 13]).2 (by decide)

/-! ## Claim C3 -/

/-- C3: the claim says a configuration with BOTH a GPIO pin and a device
path set fails with a configuration error before any source is opened.  The
code tests the GPIO field first, so with pin 18 and a device path both set
it selects the GPIO source and raises nothing. -/
theorem c3_counterexample :
    read_from_ranger 18 "/dev/ttyS0" = .gpioSource 18 ∧
    read_from_ranger 18 "/dev/ttyS0" ≠ .configError := by
  refine ⟨by decide, by decide⟩

/-- C3 amended: only the configuration with NEITHER source set fails before
any source is opened; a set GPIO pin always wins, so when both are set the
GPIO source is selected with no error, and the device path is used exactly
when the pin is unset. -/
theorem c3_source_selection (g : Int) (p : String) :
    (g = -1 → p = "" → read_from_ranger g p = .configError) ∧
    (g ≠ -1 → read_from_ranger g p = .gpioSource g) ∧
    (g = -1 → p ≠ "" → read_from_ranger g p = .uartSource p) := by
  refine ⟨?_, ?_, ?_⟩
  · intro hg hp
    simp [read_from_ranger, hg, hp]
  · intro hg
    simp [read_from_ranger, hg]
  · intro hg hp
    simp [read_from_ranger, hg, hp]

/-- C3 witness: the amended selection theorem evaluated at the three
concrete configurations. -/
theorem c3_source_selection_witness :
    read_from_ranger (-1) "" = .configError ∧
    read_from_ranger 18 "" = .gpioSource 18 ∧
    read_from_ranger (-1) "/dev/ttyS0" = .uartSource "/dev/ttyS0" :=
  ⟨(c3_source_selection (-1) "").1 rfl rfl,
   (c3_source_selection 18 "").2.1 (by decide),
   (c3_source_selection (-1) "/dev/ttyS0").2.2 rfl (by decide)⟩

/-! ## Claim C2 -/

/-- C2: the claim says the published payload is the object with the keys
timestamp and value.  The dict the code builds and serializes binds the
capture to the key ranger_distance, not value: for the capture 0123 the
serialized payload carries the key ranger_distance. -/
theorem c2_counterexample :
    (rangerPayload 1700000000 "0123").map Prod.fst = ["timestamp", "ranger_distance"] ∧
    (rangerPayload 1700000000 "0123").map Prod.fst ≠ ["timestamp", "value"] ∧
    jsonDumps (rangerPayload 1700000000 "0123") =
      "\x7b\"timestamp\": 1700000000, \"ranger_distance\": \"0123\"\x7d" := by
  refine ⟨by decide, by decide, by decide⟩

/-- C2 amended: for every successful acquisition the payload is a structured
object with exactly two fields, an integer UTC timestamp under the key
timestamp and the extracted capture string under the key ranger_distance,
and on a clean connect this serialized object is what the publish call
sends to the configured topic. -/
theorem c2_payload_fields (ts : Nat) (v : String) (cfg : SinkCfg) (env : SinkEnv)
    (hc : env.connectFails = false) :
    (rangerPayload ts v).map Prod.fst = ["timestamp", "ranger_distance"] ∧
    (rangerPayload ts v).lookup "timestamp" = some (.jint ts) ∧
    (rangerPayload ts v).lookup "ranger_distance" = some (.jstr v) ∧
    SinkEvent.publishAttempt cfg.topic (jsonDumps (rangerPayload ts v)) ∈
      (send_to_mqtt cfg (rangerPayload ts v) env).2 := by
  refine ⟨by simp [rangerPayload], by simp [rangerPayload, List.lookup], ?_, ?_⟩
  · simp [rangerPayload, List.lookup]
  · obtain ⟨cf, pf, df⟩ := env
    simp only at hc
    subst hc
    cases pf <;> cases df <;> simp [send_to_mqtt, sendBody]

/-- C2 witness: the amended payload theorem evaluated at the timestamp
1700000000, the capture 0123 and a clean sink environment. -/
theorem c2_payload_fields_witness :
    (rangerPayload 1700000000 "0123").map Prod.fst = ["timestamp", "ranger_distance"] ∧
    (rangerPayload 1700000000 "0123").lookup "timestamp" = some (.jint 1700000000) ∧
    (rangerPayload 1700000000 "0123").lookup "ranger_distance" = some (.jstr "0123") ∧
    SinkEvent.publishAttempt "snowdata" (jsonDumps (rangerPayload 1700000000 "0123")) ∈
      (send_to_mqtt ⟨none, none, "broker", 1883, "snowdata"⟩
        (rangerPayload 1700000000 "0123") ⟨false, false, false⟩).2 :=
  c2_payload_fields 1700000000 "0123" ⟨none, none, "broker", 1883, "snowdata"⟩
    ⟨false, false, false⟩ rfl

/-! ## Claim C4 -/

/-- C4: on every terminal path of either polling loop the source handle is
closed exactly once, and when the close itself raises after a successful
match, the run reports the close failure instead of the computed reading;
with a clean close the computed reading is what the run returns. -/
theorem c4_cleanup_escalation (pat : String → Option String) (start : Nat)
    (uevents : List UartEvent) (gevents : List GpioEvent) (closeRaises : Bool)
    (ts : Option Nat) (cap : String) (gts : Nat) (gcap : String) :
    (read_from_ranger_uart closeRaises pat start uevents).2 = 1 ∧
    (read_from_ranger_gpio closeRaises pat gevents).2 = 1 ∧
    (uartLoop pat start uartTimeoutSeconds uevents ⟨[], none⟩ = .matched ts cap →
      (read_from_ranger_uart true pat start uevents).1 = .closeError ∧
      (read_from_ranger_uart false pat start uevents).1 = .reading ts cap) ∧
    (gpioLoop pat gevents ⟨[], 0⟩ = .matched gts gcap →
      (read_from_ranger_gpio true pat gevents).1 = .closeError ∧
      (read_from_ranger_gpio false pat gevents).1 = .reading gts gcap) := by
  refine ⟨?_, ?_, ?_, ?_⟩
  · cases h : uartLoop pat start uartTimeoutSeconds uevents ⟨[], none⟩ <;>
      cases closeRaises <;> simp [read_from_ranger_uart, h]
  · cases h : gpioLoop pat gevents ⟨[], 0⟩ <;>
      cases closeRaises <;> simp [read_from_ranger_gpio, h]
  · intro h
    exact ⟨by simp [read_from_ranger_uart, h], by simp [read_from_ranger_uart, h]⟩
  · intro h
    exact ⟨by simp [read_from_ranger_gpio, h], by simp [read_from_ranger_gpio, h]⟩

/-- C4 witness: the cleanup theorem evaluated on a one-iteration UART trace
and a one-iteration GPIO trace that each deliver the frame R0523 CR: both
loops match, the raising close turns both runs into close failures, the
clean close returns the reading, and close is counted once. -/
theorem c4_cleanup_escalation_witness :
    (read_from_ranger_uart true rangerMatch 0 [⟨0, [82, 48, 53, 50, 51, 13], 3⟩]).1 =
      .closeError ∧
    (read_from_ranger_uart false rangerMatch 0 [⟨0, [82, 48, 53, 50, 51, 13], 3⟩]).1 =
      .reading (some 3) "0523" ∧
    (read_from_ranger_gpio true rangerMatch [⟨[82, 48, 53, 50, 51, 13], 2⟩]).1 =
      .closeError ∧
    (read_from_ranger_gpio false rangerMatch [⟨[82, 48, 53, 50, 51, 13], 2⟩]).1 =
      .reading 2 "0523" ∧
    (read_from_ranger_uart true rangerMatch 0 [⟨0, [82, 48, 53, 50, 51, 13], 3⟩]).2 = 1 ∧
    (read_from_ranger_gpio false rangerMatch [⟨[82, 48, 53, 50, 51, 13], 2⟩]).2 = 1 := by
  have h := c4_cleanup_escalation rangerMatch 0 [⟨0, [82, 48, 53, 50, 51, 13], 3⟩]
    [⟨[82, 48, 53, 50, 51, 13], 2⟩] true (some 3) "0523" 2 "0523"
  have hu := h.2.2.1 (by decide)
  have hg := h.2.2.2 (by decide)
  have h' := c4_cleanup_escalation rangerMatch 0 [⟨0, [82, 48, 53, 50, 51, 13], 3⟩]
    [⟨[82, 48, 53, 50, 51, 13], 2⟩] false (some 3) "0523" 2 "0523"
  exact ⟨hu.1, hu.2, hg.1, hg.2, h.1, h'.2.1⟩

/-! ## Claim C5 -/

/-- C5: a UART acquisition over a source that never yields a matching line
terminates in the timed-out terminal once the while guard observes an
elapsed time at or beyond the 20-second bound, the reported elapsed time is
at or beyond the bound, the run surfaces the timeout error, and the serial
handle is closed exactly once whether or not the close raises. -/
theorem c5_uart_timeout (pat : String → Option String) (start : Nat)
    (events : List UartEvent) (hnm : ∀ l, pat l = none)
    (hlate : ∃ e ∈ events, start + uartTimeoutSeconds ≤ e.tCond) :
    (uartLoop pat start uartTimeoutSeconds events ⟨[], none⟩).isTimedOut = true ∧
    (∀ t, uartLoop pat start uartTimeoutSeconds events ⟨[], none⟩ = .timedOut t →
      start + uartTimeoutSeconds ≤ t) ∧
    read_from_ranger_uart false pat start events = (.timeoutError, 1) ∧
    (read_from_ranger_uart true pat start events).2 = 1 := by
  refine ⟨uartLoop_nomatch_timesOut pat hnm start uartTimeoutSeconds events ⟨[], none⟩ hlate,
    fun t ht => uartLoop_timedOut_le pat start uartTimeoutSeconds (by decide) events
      ⟨[], none⟩ t ht, ?_, ?_⟩
  · have hto := uartLoop_nomatch_timesOut pat hnm start uartTimeoutSeconds events
      ⟨[], none⟩ hlate
    cases h : uartLoop pat start uartTimeoutSeconds events ⟨[], none⟩ with
    | matched ts cap => rw [h] at hto; simp [UartOutcome.isTimedOut] at hto
    | timedOut t => simp [read_from_ranger_uart, h]
    | interrupted st => rw [h] at hto; simp [UartOutcome.isTimedOut] at hto
  · cases h : uartLoop pat start uartTimeoutSeconds events ⟨[], none⟩ <;>
      simp [read_from_ranger_uart, h]

/-- C5 witness: the timeout theorem evaluated on a source that produces no
bytes and a trace whose single while check observes the clock at 25 seconds
past a start of 0, beyond the 20-second bound. -/
theorem c5_uart_timeout_witness :
    (uartLoop (fun _ => none) 0 uartTimeoutSeconds [⟨25, [], 26⟩] ⟨[], none⟩).isTimedOut =
      true ∧
    0 + uartTimeoutSeconds ≤ 25 ∧
    read_from_ranger_uart false (fun _ => none) 0 [⟨25, [], 26⟩] = (.timeoutError, 1) := by
  have h := c5_uart_timeout (fun _ => none) 0 [⟨25, [], 26⟩] (fun l => rfl)
    ⟨⟨25, [], 26⟩, by simp, by decide⟩
  exact ⟨h.1, h.2.1 25 (by decide), h.2.2.1⟩

/-! ## Claim C6 -/

/-- C6: the claim says every polling iteration stamps the current UTC time
exactly once, whether or not any line matches.  In the UART loop the stamp
happens only under the data-available test: an iteration that observes the
clock at 7 but finds no bytes waiting leaves unix_time untouched (still
unset), so no time is stamped in that iteration. -/
theorem c6_counterexample :
    uartStep rangerMatch ⟨0, [], 7⟩ ⟨[], none⟩ = .next ⟨[], none⟩ ∧
    (UartState.mk [] none).unixTime ≠ some 7 := by
  refine ⟨by decide, by decide⟩

/-- C6 amended: the GPIO loop stamps the iteration clock exactly once per
iteration, match or not, and a GPIO match carries that same-iteration stamp;
the UART loop stamps the iteration clock exactly once per iteration in
which bytes were available — an iteration with no bytes waiting leaves the
state, timestamp included, unchanged — and a UART match carries the stamp
of the iteration that produced the first matching line. -/
theorem c6_timestamp_per_iteration (pat : String → Option String) (e : UartEvent)
    (g : GpioEvent) (stU : UartState) (stG : GpioState) :
    (e.avail = [] → uartStep pat e stU = .next stU) ∧
    (e.avail ≠ [] →
      (∃ st', uartStep pat e stU = .next st' ∧ st'.unixTime = some e.tStamp) ∨
      (∃ cap, uartStep pat e stU = .matchedAt (some e.tStamp) cap)) ∧
    ((∃ st', gpioStep pat g stG = .next st' ∧ st'.unixTime = g.tStamp) ∨
      (∃ cap, gpioStep pat g stG = .matchedAt g.tStamp cap)) := by
  refine ⟨?_, ?_, ?_⟩
  · intro h
    simp [uartStep, h]
  · intro h
    have hav : e.avail.isEmpty = false := by
      simpa [List.isEmpty_iff] using h
    unfold uartStep
    simp only [hav, Bool.false_eq_true, if_false]
    rcases hr : (feedStep stU.buffer e.avail).2 with _ | ⟨l, ls⟩
    · exact Or.inl ⟨_, rfl, rfl⟩
    · cases hm : pat l with
      | some cap => exact Or.inr ⟨cap, by simp [hm]⟩
      | none =>
        exact Or.inl ⟨⟨(feedStep stU.buffer e.avail).1, some e.tStamp⟩, by simp [hm], rfl⟩
  · unfold gpioStep
    by_cases hav : g.avail.isEmpty
    · simp only [hav, if_true]
      exact Or.inl ⟨_, rfl, rfl⟩
    · simp only [hav, Bool.false_eq_true, if_false]
      rcases hr : (feedStep stG.buffer g.avail).2 with _ | ⟨l, ls⟩
      · exact Or.inl ⟨_, rfl, rfl⟩
      · cases hm : pat l with
        | some cap => exact Or.inr ⟨cap, by simp [hm]⟩
        | none =>
          exact Or.inl ⟨⟨(feedStep stG.buffer g.avail).1, g.tStamp⟩, by simp [hm], rfl⟩

/-- C6 witness: the amended stamping theorem evaluated on a UART iteration
that reads the byte A at clock 7 and on a GPIO iteration that reads nothing
at clock 9. -/
theorem c6_timestamp_per_iteration_witness :
    ((∃ st', uartStep rangerMatch ⟨0, [65], 7⟩ ⟨[], none⟩ = .next st' ∧
        st'.unixTime = some 7) ∨
      (∃ cap, uartStep rangerMatch ⟨0, [65], 7⟩ ⟨[], none⟩ = .matchedAt (some 7) cap)) ∧
    ((∃ st', gpioStep rangerMatch ⟨[], 9⟩ ⟨[], 0⟩ = .next st' ∧ st'.unixTime = 9) ∨
      (∃ cap, gpioStep rangerMatch ⟨[], 9⟩ ⟨[], 0⟩ = .matchedAt 9 cap)) := by
  have h := c6_timestamp_per_iteration rangerMatch ⟨0, [65], 7⟩ ⟨[], 9⟩ ⟨[], none⟩ ⟨[], 0⟩
  exact ⟨h.2.1 (by decide), h.2.2⟩

/-! ## Claim C7 -/

/-- C7: every publish call attempts the disconnect before returning, on
every combination of connect, publish and disconnect outcomes; a failing
disconnect is what the caller sees, whatever the publish outcome was; a
clean disconnect passes the body outcome through unchanged; and when both
the publish stage and the disconnect fail, both failures are logged, so
neither is silently dropped. -/
theorem c7_disconnect_always (cfg : SinkCfg) (payload : List (String × JVal))
    (env : SinkEnv) :
    SinkEvent.disconnectAttempt ∈ (send_to_mqtt cfg payload env).2 ∧
    (env.disconnectFails = true → (send_to_mqtt cfg payload env).1 = .disconnectError) ∧
    (env.disconnectFails = false →
      (send_to_mqtt cfg payload env).1 = (sendBody cfg payload env).1) ∧
    (env.publishFails = true → env.connectFails = false →
      SinkEvent.logPublishError ∈ (send_to_mqtt cfg payload env).2) ∧
    (env.disconnectFails = true →
      SinkEvent.logDisconnectError ∈ (send_to_mqtt cfg payload env).2) := by
  obtain ⟨cf, pf, df⟩ := env
  refine ⟨?_, ?_, ?_, ?_, ?_⟩ <;>
    cases cf <;> cases pf <;> cases df <;>
      simp [send_to_mqtt, sendBody]

/-- C7 witness: the disconnect theorem evaluated at a sink environment in
which the publish and the disconnect both fail. -/
theorem c7_disconnect_always_witness :
    SinkEvent.disconnectAttempt ∈
      (send_to_mqtt ⟨none, none, "broker", 1883, "topic"⟩ (rangerPayload 5 "0123")
        ⟨false, true, true⟩).2 ∧
    (send_to_mqtt ⟨none, none, "broker", 1883, "topic"⟩ (rangerPayload 5 "0123")
        ⟨false, true, true⟩).1 = .disconnectError ∧
    SinkEvent.logPublishError ∈
      (send_to_mqtt ⟨none, none, "broker", 1883, "topic"⟩ (rangerPayload 5 "0123")
        ⟨false, true, true⟩).2 ∧
    SinkEvent.logDisconnectError ∈
      (send_to_mqtt ⟨none, none, "broker", 1883, "topic"⟩ (rangerPayload 5 "0123")
        ⟨false, true, true⟩).2 := by
  have h := c7_disconnect_always ⟨none, none, "broker", 1883, "topic"⟩
    (rangerPayload 5 "0123") ⟨false, true, true⟩
  exact ⟨h.1, h.2.1 rfl, h.2.2.2.1 rfl rfl, h.2.2.2.2 rfl⟩

/-! ## Claim C8 -/

/-- C8: the GPIO polling loop carries no timeout guard: no trace can drive
it into the timed-out terminal, and over a source that never yields a
matching line it consumes its entire event trace still polling — only the
trace ending (the model of an external interrupt or a source error
unwinding the loop) stops it without a match. -/
theorem c8_gpio_never_times_out (pat : String → Option String)
    (events : List GpioEvent) (st : GpioState) :
    (∀ t, gpioLoop pat events st ≠ .timedOut t) ∧
    ((∀ l, pat l = none) → (gpioLoop pat events st).isInterrupted = true) := by
  exact ⟨gpioLoop_ne_timedOut pat events st,
    fun hnm => gpioLoop_nomatch_interrupted pat hnm events st⟩

/-- C8 witness: the no-timeout theorem evaluated on a two-iteration trace
under a pattern that never matches: the loop ends interrupted, not timed
out. -/
theorem c8_gpio_never_times_out_witness :
    (gpioLoop (fun _ => none) [⟨[65], 1⟩, ⟨[66, 13], 2⟩] ⟨[], 0⟩).isInterrupted = true ∧
    gpioLoop (fun _ => none) [⟨[65], 1⟩, ⟨[66, 13], 2⟩] ⟨[], 0⟩ ≠ .timedOut 2 := by
  have h := c8_gpio_never_times_out (fun _ => none) [⟨[65], 1⟩, ⟨[66, 13], 2⟩] ⟨[], 0⟩
  exact ⟨h.2 (fun l => rfl), h.1 2⟩

/-! ## Claim C9 -/

/-- C9: with the reference pattern (caret R, one group of four digits,
dollar), the line R0523 yields the captured group 0523 and the line X0523
yields nothing — the matcher is a total function into an option, so a
non-match is a value, not an error — and a polling iteration whose candidate
line fails to match continues to the next iteration with the post-delimiter
buffer and the fresh stamp, for any pattern. -/
theorem c9_pattern_extraction (pat : String → Option String) (e : GpioEvent)
    (st : GpioState) (l : String) (he : e.avail ≠ [])
    (hl : (feedStep st.buffer e.avail).2 = [l]) (hn : pat l = none) :
    rangerMatch "R0523" = some "0523" ∧
    rangerMatch "X0523" = none ∧
    gpioStep pat e st = .next ⟨(feedStep st.buffer e.avail).1, e.tStamp⟩ := by
  have hav : e.avail.isEmpty = false := by
    simpa [List.isEmpty_iff] using he
  refine ⟨by decide, by decide, ?_⟩
  unfold gpioStep
  simp only [hav, Bool.false_eq_true, if_false, hl, hn]

/-- C9 witness: the extraction theorem evaluated on a GPIO iteration that
delivers the frame X0523 CR to an empty buffer under the reference
pattern: the line does not match and the loop keeps polling. -/
theorem c9_pattern_extraction_witness :
    rangerMatch "R0523" = some "0523" ∧
    rangerMatch "X0523" = none ∧
    gpioStep rangerMatch ⟨[88, 48, 53, 50, 51, 13], 1⟩ ⟨[], 0⟩ =
      .next ⟨(feedStep [] [88, 48, 53, 50, 51, 13]).1, 1⟩ :=
  c9_pattern_extraction rangerMatch ⟨[88, 48, 53, 50, 51, 13], 1⟩ ⟨[], 0⟩ "X0523"
    (by decide) (by decide) (by decide)

/-! ## Claim C10 -/

/-- C10: when the credential pair is one-sided or has an empty component,
the publish step applies no credentials and raises nothing: the call
behaves exactly as with no credentials configured at all, no
set-credentials action is performed, and the connect attempt proceeds. -/
theorem c10_one_sided_credentials (u p : Option String) (broker : String)
    (port : Nat) (topic : String) (payload : List (String × JVal)) (env : SinkEnv)
    (h : ¬(pyTruthy u = true ∧ pyTruthy p = true)) :
    send_to_mqtt ⟨u, p, broker, port, topic⟩ payload env =
      send_to_mqtt ⟨none, none, broker, port, topic⟩ payload env ∧
    (∀ a b, SinkEvent.setCredentials a b ∉
      (send_to_mqtt ⟨u, p, broker, port, topic⟩ payload env).2) ∧
    SinkEvent.connectAttempt broker port ∈
      (send_to_mqtt ⟨u, p, broker, port, topic⟩ payload env).2 := by
  have hcred : (pyTruthy u && pyTruthy p) = false := by
    rcases hu : pyTruthy u <;> rcases hp : pyTruthy p <;> simp_all
  obtain ⟨cf, pf, df⟩ := env
  have hnone : pyTruthy none = false := rfl
  refine ⟨?_, ?_, ?_⟩ <;>
    cases cf <;> cases pf <;> cases df <;>
      simp [send_to_mqtt, sendBody, hcred, hnone]

/-- C10 witness: the one-sided-credential theorem evaluated with a username
set, no password, and a clean sink environment. -/
theorem c10_one_sided_credentials_witness :
    send_to_mqtt ⟨some "alice", none, "broker", 1883, "topic"⟩ (rangerPayload 5 "0123")
        ⟨false, false, false⟩ =
      send_to_mqtt ⟨none, none, "broker", 1883, "topic"⟩ (rangerPayload 5 "0123")
        ⟨false, false, false⟩ ∧
    SinkEvent.setCredentials "alice" "" ∉
      (send_to_mqtt ⟨some "alice", none, "broker", 1883, "topic"⟩ (rangerPayload 5 "0123")
        ⟨false, false, false⟩).2 ∧
    SinkEvent.connectAttempt "broker" 1883 ∈
      (send_to_mqtt ⟨some "alice", none, "broker", 1883, "topic"⟩ (rangerPayload 5 "0123")
        ⟨false, false, false⟩).2 := by
  have h := c10_one_sided_credentials (some "alice") none "broker" 1883 "topic"
    (rangerPayload 5 "0123") ⟨false, false, false⟩ (by simp [pyTruthy])
  exact ⟨h.1, h.2.1 "alice" "", h.2.2⟩

end SnowRanger
